import Mathlib

/-!
Verification of the localized-artifact caching and generation service
(`localization-manager-backend`): a shallow embedding of the Go backend —
the `TTLCache` LRU/TTL cache, the template interpolator, the artifact
generator `getLocalizedComponent`, and the HTTP handler
`getLocalizedComponentEndpoint` — together with theorems settling the
specified properties (capacity/recency/lazy-TTL invariants, language
fallback and cache-key normalization, placeholder substitution, remote-tier
failure absorption, and the frame conditions of the hit/miss paths).

Modelling conventions: Go wall-clock instants are `Nat` millisecond values
passed explicitly; Go maps that the code iterates or looks up are
association lists with first-match lookup; the Redis tier is a parameter
recording which remote operations the handler attempts; mutation is
explicit state passing.
-/

namespace LocBackend

/-- One entry of the LRU list of `TTLCache`.  The Go code keeps the
timestamp in a side map `timestamps` keyed by the same key; since every
API operation keeps the key sets of `cache`, `lruList` and `timestamps`
identical, the entry carries its timestamp directly. -/
structure CacheEntry (V : Type) where
  key : String
  value : V
  timestamp : Nat
deriving Repr, DecidableEq

/-- `TTLCache`: a size-bounded LRU cache with lazy TTL expiry.  `entries`
is the LRU list, front (head) = least recently used, back (last) = most
recently used, mirroring `lruList` in the source (`PushBack`/`MoveToBack`
put recent elements at the back, eviction removes `Front`). -/
structure TTLCache (V : Type) where
  maxSize : Nat
  ttl : Nat
  entries : List (CacheEntry V)
deriving Repr, DecidableEq

/-- `NewTTLCache` from the source: an empty cache with the given capacity
and TTL. -/
def NewTTLCache (V : Type) (maxSize ttl : Nat) : TTLCache V :=
  { maxSize := maxSize, ttl := ttl, entries := [] }

/-- `TTLCache.Get`: returns the value if present and unexpired, marking the
entry most-recently-used (move to back); an entry found expired
(`now - timestamp > ttl`, Go `time.Since(timestamp) > c.ttl`) is removed
and the call misses.  Returns the value (if any) and the updated cache. -/
def TTLCache.Get (c : TTLCache V) (key : String) (now : Nat) :
    Option V × TTLCache V :=
  match c.entries.find? (fun e => e.key == key) with
  | none => (none, c)
  | some e =>
    if now - e.timestamp > c.ttl then
      (none, { c with entries := c.entries.eraseP (fun e => e.key == key) })
    else
      (some e.value,
       { c with entries := c.entries.eraseP (fun e => e.key == key) ++ [e] })

/-- `TTLCache.Put`: replaces an existing entry (moving it to the back and
refreshing its timestamp), or inserts a new one, first evicting the front
(least-recently-used) entry when the cache is at capacity.  As in the Go
source, when the list is empty the eviction step removes nothing
(`oldest != nil` guard) and the insertion proceeds regardless. -/
def TTLCache.Put (c : TTLCache V) (key : String) (value : V) (now : Nat) :
    TTLCache V :=
  if (c.entries.find? (fun e => e.key == key)).isSome then
    { c with entries := c.entries.eraseP (fun e => e.key == key) ++
        [{ key := key, value := value, timestamp := now }] }
  else
    let afterEvict :=
      if c.entries.length ≥ c.maxSize then c.entries.tail else c.entries
    { c with entries := afterEvict ++
        [{ key := key, value := value, timestamp := now }] }

/-- `TTLCache.Size`: the number of structural entries, fresh or not. -/
def TTLCache.Size (c : TTLCache V) : Nat :=
  c.entries.length

/-- `TTLCache.Clear`: drops all entries. -/
def TTLCache.Clear (c : TTLCache V) : TTLCache V :=
  { c with entries := [] }

/-- Whether the cache structurally holds an entry for `key` (regardless of
freshness); corresponds to `key ∈ c.cache` in the source. -/
def TTLCache.containsKey (c : TTLCache V) (key : String) : Bool :=
  c.entries.any (fun e => e.key == key)

/-- The key of the least-recently-used entry (the front of the LRU list),
i.e. the entry `Put` evicts when inserting a fresh key at capacity. -/
def TTLCache.lruKey (c : TTLCache V) : Option String :=
  c.entries.head?.map (fun e => e.key)

/-- The keys of the cache's entries are pairwise distinct.  This holds for
every cache reachable through the API (a `map[string]` backs the list). -/
def TTLCache.keysNodup (c : TTLCache V) : Prop :=
  (c.entries.map (fun e => e.key)).Nodup

/-- A sequence of `Put` operations, each a `(key, value, timestamp)`
triple, applied in order. -/
def putRun (c : TTLCache V) : List (String × V × Nat) → TTLCache V
  | [] => c
  | (k, v, t) :: rest => putRun (c.Put k v t) rest

/-- `ComponentTemplate`: a registered React component template. -/
structure ComponentTemplate where
  componentName : String
  componentType : String
  template : String
  requiredKeys : List String
deriving Repr, DecidableEq

/-- `ComponentMetadata` of a generated component.  `lastUpdated` renders the
generation instant (RFC 3339 in the source); here it is the decimal
rendering of the millisecond clock value. -/
structure ComponentMetadata where
  componentID : String
  lastUpdated : String
  requiredKeys : List String
deriving Repr, DecidableEq

/-- `LocalizedComponent`: the generated / cached / delivered artifact. -/
structure LocalizedComponent where
  componentName : String
  componentType : String
  language : String
  template : String
  localizedData : List (String × String)
  metadata : ComponentMetadata
  cached : Bool
deriving Repr, DecidableEq

/-- Whether a character may appear in an interpolation key: the regex class
`[a-zA-Z_]` of the pre-compiled pattern `\x7bl10n\.([a-zA-Z_]+)\x7d`. -/
def isL10nChar (c : Char) : Bool :=
  ('a' ≤ c && c ≤ 'z') || ('A' ≤ c && c ≤ 'Z') || c == '_'

/-- Attempts to read, after an opening brace, the body of a marker of the
pre-compiled pattern: the literal prefix `l10n.`, then a maximal nonempty
run of `[a-zA-Z_]` characters, then the closing brace.  Returns the key
run and the characters after the marker, or `none` when the pattern does
not match here.  (For a greedy `[a-zA-Z_]+` followed by a literal closing
brace, the regex matches exactly when the character terminating the
maximal run is that closing brace, which is what this checks.) -/
def matchMarker (cs : List Char) : Option (List Char × List Char) :=
  if cs.take 5 = ['l', '1', '0', 'n', '.'] then
    match (cs.drop 5).dropWhile isL10nChar with
    | '}' :: rest =>
      if (cs.drop 5).takeWhile isL10nChar = [] then none
      else some ((cs.drop 5).takeWhile isL10nChar, rest)
    | _ => none
  else none

/-- Character-level worker for `interpolateTemplate`, scanning left to
right exactly as Go's `Regexp.ReplaceAllStringFunc` does with the pattern
above: at a match, a key present in the map is replaced by its value
wrapped in double quotes, a key absent from the map leaves the whole
marker verbatim, and scanning resumes after the match; where no match
starts, one character is emitted and scanning resumes at the next
position.  `fuel` bounds recursion; the entry point passes the input
length, which is sufficient since every step consumes at least one
character. -/
def interpolateAux (dat : List (String × String)) :
    Nat → List Char → List Char
  | 0, l => l
  | _ + 1, [] => []
  | fuel + 1, c :: cs =>
    if c = '{' then
      match matchMarker cs with
      | some (run, rest) =>
        match dat.lookup (String.mk run) with
        | some v => '"' :: (v.data ++ '"' :: interpolateAux dat fuel rest)
        | none =>
          '{' :: 'l' :: '1' :: '0' :: 'n' :: '.' ::
            (run ++ '}' :: interpolateAux dat fuel rest)
      | none => '{' :: interpolateAux dat fuel cs
    else c :: interpolateAux dat fuel cs

/-- `interpolateTemplate`: replaces `\x7bl10n.key\x7d` markers with the
double-quoted localized value, leaving unmatched markers verbatim. -/
def interpolateTemplate (template : String)
    (localizedData : List (String × String)) : String :=
  String.mk (interpolateAux localizedData template.data.length template.data)

/-- The localization database (`localizationDB` in the source): language -> key -> localized string. -/
def localizationDB : List (String × List (String × String)) := [
  ("en", [
    ("welcome_title", "Welcome to Our App"),
    ("welcome_subtitle", "Your journey starts here"),
    ("login_button", "Log In"),
    ("signup_button", "Sign Up"),
    ("navigation_home", "Home"),
    ("navigation_about", "About"),
    ("navigation_contact", "Contact"),
    ("footer_copyright", "¬© 2024 Our Company. All rights reserved."),
    ("user_profile_title", "User Profile"),
    ("user_profile_edit", "Edit Profile"),
    ("settings_title", "Settings"),
    ("settings_language", "Language"),
    ("settings_theme", "Theme"),
    ("error_404", "Page not found"),
    ("error_500", "Internal server error")
  ]),
  ("es", [
    ("welcome_title", "Bienvenido a Nuestra App"),
    ("welcome_subtitle", "Tu viaje comienza aqu√≠"),
    ("login_button", "Iniciar Sesi√≥n"),
    ("signup_button", "Registrarse"),
    ("navigation_home", "Inicio"),
    ("navigation_about", "Acerca de"),
    ("navigation_contact", "Contacto"),
    ("footer_copyright", "¬© 2024 Nuestra Empresa. Todos los derechos reservados."),
    ("user_profile_title", "Perfil de Usuario"),
    ("user_profile_edit", "Editar Perfil"),
    ("settings_title", "Configuraci√≥n"),
    ("settings_language", "Idioma"),
    ("settings_theme", "Tema"),
    ("error_404", "P√°gina no encontrada"),
    ("error_500", "Error interno del servidor")
  ]),
  ("fr", [
    ("welcome_title", "Bienvenue dans Notre App"),
    ("welcome_subtitle", "Votre voyage commence ici"),
    ("login_button", "Se Connecter"),
    ("signup_button", "S\x27inscrire"),
    ("navigation_home", "Accueil"),
    ("navigation_about", "√Ä Propos"),
    ("navigation_contact", "Contact"),
    ("footer_copyright", "¬© 2024 Notre Entreprise. Tous droits r√©serv√©s."),
    ("user_profile_title", "Profil Utilisateur"),
    ("user_profile_edit", "Modifier le Profil"),
    ("settings_title", "Param√®tres"),
    ("settings_language", "Langue"),
    ("settings_theme", "Th√®me"),
    ("error_404", "Page non trouv√©e"),
    ("error_500", "Erreur interne du serveur")
  ]),
  ("de", [
    ("welcome_title", "Willkommen in Unserer App"),
    ("welcome_subtitle", "Ihre Reise beginnt hier"),
    ("login_button", "Anmelden"),
    ("signup_button", "Registrieren"),
    ("navigation_home", "Startseite"),
    ("navigation_about", "√úber Uns"),
    ("navigation_contact", "Kontakt"),
    ("footer_copyright", "¬© 2024 Unser Unternehmen. Alle Rechte vorbehalten."),
    ("user_profile_title", "Benutzerprofil"),
    ("user_profile_edit", "Profil Bearbeiten"),
    ("settings_title", "Einstellungen"),
    ("settings_language", "Sprache"),
    ("settings_theme", "Design"),
    ("error_404", "Seite nicht gefunden"),
    ("error_500", "Interner Serverfehler")
  ])
]

/-- The component template registry (`componentTemplates` in the source). -/
def componentTemplates : List (String × ComponentTemplate) := [
  ("welcome", {
    componentName := "WelcomeComponent"
    componentType := "functional"
    template := "\nimport React from \x27react\x27;\n\nconst WelcomeComponent = (\x7b className = \"welcome-container\" \x7d) => \x7b\n  return (\n    <div className=\x7bclassName\x7d>\n      <div className=\"welcome-wrapper\">\n        <header className=\"welcome-header\">\n          <h1 className=\"welcome-title\" data-l10n=\"welcome_title\">\n            \x7bl10n.welcome_title\x7d\n          </h1>\n          <p className=\"welcome-subtitle\" data-l10n=\"welcome_subtitle\">\n            \x7bl10n.welcome_subtitle\x7d\n          </p>\n        </header>\n        <div className=\"welcome-actions\">\n          <button \n            className=\"btn btn-primary\" \n            onClick=\x7bhandleLogin\x7d\n            data-l10n=\"login_button\"\n          >\n            \x7bl10n.login_button\x7d\n          </button>\n          <button \n            className=\"btn btn-secondary\" \n            onClick=\x7bhandleSignup\x7d\n            data-l10n=\"signup_button\"\n          >\n            \x7bl10n.signup_button\x7d\n          </button>\n        </div>\n      </div>\n    </div>\n  );\n\x7d;\n\nexport default WelcomeComponent;\n"
    requiredKeys := ["welcome_title", "welcome_subtitle", "login_button", "signup_button"] }),
  ("navigation", {
    componentName := "NavigationComponent"
    componentType := "functional"
    template := "\nimport React from \x27react\x27;\n\nconst NavigationComponent = (\x7b className = \"navigation-container\" \x7d) => \x7b\n  return (\n    <nav className=\x7bclassName\x7d>\n      <ul className=\"nav-list\">\n        <li className=\"nav-item\">\n          <a href=\"/\" className=\"nav-link\" data-l10n=\"navigation_home\">\n            \x7bl10n.navigation_home\x7d\n          </a>\n        </li>\n        <li className=\"nav-item\">\n          <a href=\"/about\" className=\"nav-link\" data-l10n=\"navigation_about\">\n            \x7bl10n.navigation_about\x7d\n          </a>\n        </li>\n        <li className=\"nav-item\">\n          <a href=\"/contact\" className=\"nav-link\" data-l10n=\"navigation_contact\">\n            \x7bl10n.navigation_contact\x7d\n          </a>\n        </li>\n      </ul>\n    </nav>\n  );\n\x7d;\n\nexport default NavigationComponent;\n"
    requiredKeys := ["navigation_home", "navigation_about", "navigation_contact"] }),
  ("user_profile", {
    componentName := "UserProfileComponent"
    componentType := "functional"
    template := "\nimport React from \x27react\x27;\n\nconst UserProfileComponent = (\x7b className = \"user-profile-container\" \x7d) => \x7b\n  return (\n    <div className=\x7bclassName\x7d>\n      <div className=\"profile-wrapper\">\n        <h2 className=\"profile-title\" data-l10n=\"user_profile_title\">\n          \x7bl10n.user_profile_title\x7d\n        </h2>\n        <div className=\"profile-actions\">\n          <button \n            className=\"btn btn-outline\" \n            onClick=\x7bhandleEditProfile\x7d\n            data-l10n=\"user_profile_edit\"\n          >\n            \x7bl10n.user_profile_edit\x7d\n          </button>\n        </div>\n      </div>\n    </div>\n  );\n\x7d;\n\nexport default UserProfileComponent;\n"
    requiredKeys := ["user_profile_title", "user_profile_edit"] }),
  ("footer", {
    componentName := "FooterComponent"
    componentType := "functional"
    template := "\nimport React from \x27react\x27;\n\nconst FooterComponent = (\x7b className = \"footer-container\" \x7d) => \x7b\n  return (\n    <footer className=\x7bclassName\x7d>\n      <div className=\"footer-content\">\n        <p className=\"footer-copyright\" data-l10n=\"footer_copyright\">\n          \x7bl10n.footer_copyright\x7d\n        </p>\n      </div>\n    </footer>\n  );\n\x7d;\n\nexport default FooterComponent;\n"
    requiredKeys := ["footer_copyright"] })
]

/-- The localization table the generator resolves for `lang`: the
language's own table, or English on fallback; as in Go, a missing `"en"`
table yields the empty (nil) map. -/
def resolvedTable (db : List (String × List (String × String)))
    (lang : String) : List (String × String) :=
  match db.lookup lang with
  | some tbl => tbl
  | none => (db.lookup "en").getD []

/-- The language actually used for `lang` against `db`: `lang` when a table
is registered for it, otherwise the `"en"` fallback. -/
def actualLangFor (db : List (String × List (String × String)))
    (lang : String) : String :=
  if (db.lookup lang).isSome then lang else "en"

/-- `getLocalizedComponent`: generates a localized component, or an error
for an unregistered component type.  Template and localization registries
are passed explicitly (they are global configuration data in the source);
`nowMilli` is the wall clock in milliseconds, from which both the
component id suffix (`UnixMilli() % 10000`) and the generation timestamp
are derived. -/
def getLocalizedComponent (templates : List (String × ComponentTemplate))
    (db : List (String × List (String × String)))
    (componentType lang : String) (nowMilli : Nat) :
    Except String LocalizedComponent :=
  match templates.lookup componentType with
  | none =>
    .error ("component type \x27" ++ componentType ++ "\x27 not found")
  | some template =>
    let actualLang := actualLangFor db lang
    let tbl := resolvedTable db lang
    let componentStrings := template.requiredKeys.map (fun key =>
      (key, match tbl.lookup key with
            | some value => value
            | none => "[" ++ key ++ "]"))
    let localizedTemplate := interpolateTemplate template.template componentStrings
    let componentID :=
      componentType ++ "_" ++ actualLang ++ "_" ++ toString (nowMilli % 10000)
    .ok {
      componentName := template.componentName
      componentType := template.componentType
      language := actualLang
      template := localizedTemplate
      localizedData := componentStrings
      metadata := {
        componentID := componentID
        lastUpdated := toString nowMilli
        requiredKeys := template.requiredKeys }
      cached := false }

/-- The normalized cache key the endpoint builds:
`component:<type>:<actual language>`, collapsing unsupported languages onto
the `"en"` fallback. -/
def cacheKeyFor (db : List (String × List (String × String)))
    (componentType lang : String) : String :=
  "component:" ++ componentType ++ ":" ++ actualLangFor db lang

/-- A remote-tier (Redis) operation the endpoint attempts, recorded for the
frame-condition theorems: a TTL refresh (`EXPIRE`) after a remote hit, or a
best-effort `Store` after generation. -/
inductive RemoteOp where
  | refreshTTL (key : String)
  | store (key : String)
deriving Repr, DecidableEq

/-- The remote cache tier as the endpoint sees it: `fetch` models
`getFromRedis` (any Redis failure, timeout or unmarshalling error is an
`Except.error`).  Store/refresh failures are logged and swallowed by the
handler, so their outcomes need no representation. -/
structure RemoteTier where
  fetch : String → Except String LocalizedComponent

/-- The endpoint's response: a 200 with the component, or a 404 carrying
the error message and the registered component types. -/
inductive EndpointResult where
  | ok (component : LocalizedComponent)
  | notFound (errMsg : String) (availableComponents : List String)
deriving Repr

/-- Projection used to state properties of responses: the component of a
200 response, `none` for a 404. -/
def EndpointResult.okComponent : EndpointResult → Option LocalizedComponent
  | .ok c => some c
  | .notFound _ _ => none

/-- A sample artifact used to exercise the cache-hit path concretely. -/
def sampleComponent : LocalizedComponent :=
  { componentName := "WelcomeComponent"
    componentType := "functional"
    language := "en"
    template := "T"
    localizedData := [("welcome_title", "Welcome to Our App")]
    metadata := {
      componentID := "welcome_en_1"
      lastUpdated := "0"
      requiredKeys := ["welcome_title"] }
    cached := false }

/-- `getLocalizedComponentEndpoint`: the request handler.  Normalizes the
cache key, tries the local `TTLCache`, then the remote tier (when a client
is configured), then generation, writing back as the source does.  Returns
the response, the updated local cache, and the list of remote-tier write
operations attempted. -/
def getLocalizedComponentEndpoint
    (templates : List (String × ComponentTemplate))
    (db : List (String × List (String × String)))
    (cache : TTLCache LocalizedComponent)
    (remote : Option RemoteTier)
    (componentType lang : String) (nowMilli : Nat) :
    EndpointResult × TTLCache LocalizedComponent × List RemoteOp :=
  let cacheKey := cacheKeyFor db componentType lang
  match cache.Get cacheKey nowMilli with
  | (some component, cache1) =>
    (.ok { component with cached := true }, cache1, [])
  | (none, cache1) =>
    let generate :
        TTLCache LocalizedComponent →
          EndpointResult × TTLCache LocalizedComponent × List RemoteOp :=
      fun cache2 =>
        match getLocalizedComponent templates db componentType lang nowMilli with
        | .error e =>
          (.notFound e (templates.map Prod.fst), cache2, [])
        | .ok component =>
          let cache3 := cache2.Put cacheKey component nowMilli
          let ops := match remote with
            | some _ => [RemoteOp.store cacheKey]
            | none => []
          (.ok { component with cached := false }, cache3, ops)
    match remote with
    | some r =>
      match r.fetch cacheKey with
      | .ok component =>
        let cache2 := cache1.Put cacheKey component nowMilli
        (.ok { component with cached := true }, cache2,
         [RemoteOp.refreshTTL cacheKey])
      | .error _ => generate cache1
    | none => generate cache1

/-! ### Lemmas about `TTLCache` operations -/

/-- Keys of a cache's entry list. -/
def entryKeys (l : List (CacheEntry V)) : List String :=
  l.map (fun e => e.key)

lemma find?_key_decomp {V : Type} {key : String} :
    ∀ {l : List (CacheEntry V)} {e : CacheEntry V},
      l.find? (fun x => x.key == key) = some e →
      ∃ l1 l2, l = l1 ++ e :: l2 ∧ (∀ x ∈ l1, x.key ≠ key) ∧ e.key = key ∧
        l.eraseP (fun x => x.key == key) = l1 ++ l2
  | [], e => by intro h; simp at h
  | x :: xs, e => by
    intro h
    by_cases hx : x.key = key
    · have hpx : ((fun (y : CacheEntry V) => y.key == key) x) = true := by
        simpa using hx
      rw [@List.find?_cons_of_pos (CacheEntry V) (fun y => y.key == key) x xs hpx] at h
      obtain rfl : x = e := by simpa using h
      exact ⟨[], xs, rfl, by simp, hx, @List.eraseP_cons_of_pos (CacheEntry V) x xs (fun y => y.key == key) hpx⟩
    · have hpx : ¬ ((fun (y : CacheEntry V) => y.key == key) x) = true := by
        simpa using hx
      rw [@List.find?_cons_of_neg (CacheEntry V) (fun y => y.key == key) x xs hpx] at h
      obtain ⟨l1, l2, hl, hl1, hek, her⟩ := find?_key_decomp h
      refine ⟨x :: l1, l2, by simp [hl], ?_, hek, ?_⟩
      · intro y hy
        rcases List.mem_cons.mp hy with rfl | hy'
        · exact hx
        · exact hl1 y hy'
      · rw [@List.eraseP_cons_of_neg (CacheEntry V) x xs (fun y => y.key == key) hpx, her, List.cons_append]

lemma not_containsKey_iff {c : TTLCache V} {key : String} :
    c.containsKey key = false ↔ ∀ x ∈ c.entries, x.key ≠ key := by
  unfold TTLCache.containsKey
  rw [← Bool.not_eq_true, List.any_eq_true]
  constructor
  · intro h x hx hk
    exact h ⟨x, hx, by simp [hk]⟩
  · rintro h ⟨x, hx, hk⟩
    exact h x hx (by simpa using hk)

lemma find?_eq_none_of_not_contains {c : TTLCache V} {key : String}
    (h : c.containsKey key = false) :
    c.entries.find? (fun e => e.key == key) = none := by
  rw [List.find?_eq_none]
  intro x hx
  simpa using not_containsKey_iff.mp h x hx

lemma Get_of_not_contains {c : TTLCache V} {key : String} (now : Nat)
    (h : c.containsKey key = false) :
    c.Get key now = (none, c) := by
  unfold TTLCache.Get
  rw [find?_eq_none_of_not_contains h]

lemma Put_maxSize (c : TTLCache V) (key : String) (v : V) (now : Nat) :
    (c.Put key v now).maxSize = c.maxSize := by
  unfold TTLCache.Put
  split <;> rfl

lemma Put_ttl (c : TTLCache V) (key : String) (v : V) (now : Nat) :
    (c.Put key v now).ttl = c.ttl := by
  unfold TTLCache.Put
  split <;> rfl

lemma Put_fresh_at_capacity {c : TTLCache V} {key : String} (v : V) (now : Nat)
    (hfresh : c.containsKey key = false) (hfull : c.maxSize ≤ c.entries.length) :
    (c.Put key v now).entries =
      c.entries.tail ++ [{ key := key, value := v, timestamp := now }] := by
  unfold TTLCache.Put
  rw [find?_eq_none_of_not_contains hfresh]
  simp [hfull]

lemma Put_fresh_under_capacity {c : TTLCache V} {key : String} (v : V) (now : Nat)
    (hfresh : c.containsKey key = false) (hroom : c.entries.length < c.maxSize) :
    (c.Put key v now).entries =
      c.entries ++ [{ key := key, value := v, timestamp := now }] := by
  unfold TTLCache.Put
  rw [find?_eq_none_of_not_contains hfresh]
  simp [Nat.not_le.mpr hroom]

lemma Put_length_le {c : TTLCache V} (key : String) (v : V) (now : Nat)
    (hmax : 1 ≤ c.maxSize) (hlen : c.entries.length ≤ c.maxSize) :
    (c.Put key v now).entries.length ≤ c.maxSize := by
  unfold TTLCache.Put
  cases hf : c.entries.find? (fun e => e.key == key) with
  | some e =>
    simp only [hf, Option.isSome_some, if_pos]
    obtain ⟨l1, l2, hl, -, -, her⟩ := find?_key_decomp hf
    rw [her, List.length_append, List.length_singleton]
    rw [hl, List.length_append, List.length_cons] at hlen
    rw [List.length_append]
    omega
  | none =>
    simp only [hf, Option.isSome_none, Bool.false_eq_true, if_false]
    by_cases hfull : c.entries.length ≥ c.maxSize
    · simp only [hfull, if_pos, List.length_append, List.length_singleton,
        List.length_tail]
      omega
    · simp only [hfull, if_false, List.length_append, List.length_singleton]
      omega

lemma Put_keysNodup {c : TTLCache V} (key : String) (v : V) (now : Nat)
    (h : c.keysNodup) : (c.Put key v now).keysNodup := by
  unfold TTLCache.Put TTLCache.keysNodup at *
  cases hf : c.entries.find? (fun e => e.key == key) with
  | some e =>
    simp only [hf, Option.isSome_some, if_pos]
    obtain ⟨l1, l2, hl, -, hek, her⟩ := find?_key_decomp hf
    rw [her, List.map_append]
    rw [List.nodup_append_comm]
    rw [hl, List.map_append, List.map_cons, List.nodup_middle] at h
    simpa [hek, List.map_append] using h
  | none =>
    simp only [hf, Option.isSome_none, Bool.false_eq_true, if_false]
    have hkey : key ∉ (c.entries.map (fun e => e.key)) := by
      intro hmem
      obtain ⟨x, hx, hk⟩ := List.mem_map.mp hmem
      exact (List.find?_eq_none.mp hf x hx) (by simp [hk])
    have step : ∀ l : List (CacheEntry V), l.Sublist c.entries →
        ((l ++ [({ key := key, value := v, timestamp := now } : CacheEntry V)]).map
          (fun e => e.key)).Nodup := by
      intro l hsub
      rw [List.map_append, List.nodup_append_comm]
      simp only [List.map_cons, List.map_nil, List.nil_append, List.singleton_append,
        List.nodup_cons]
      constructor
      · intro hmem
        exact hkey ((hsub.map (fun e => e.key)).mem hmem)
      · exact (hsub.map (fun e => e.key)).nodup h
    split
    · exact step _ (List.tail_sublist _)
    · exact step _ (List.Sublist.refl _)

lemma Get_hit {c : TTLCache V} {key : String} {now : Nat} {e : CacheEntry V}
    (hf : c.entries.find? (fun x => x.key == key) = some e)
    (hfresh : ¬ now - e.timestamp > c.ttl) :
    c.Get key now =
      (some e.value,
       { c with entries := c.entries.eraseP (fun x => x.key == key) ++ [e] }) := by
  unfold TTLCache.Get
  rw [hf]
  simp [hfresh]

lemma Get_expired {c : TTLCache V} {key : String} {now : Nat} {e : CacheEntry V}
    (hf : c.entries.find? (fun x => x.key == key) = some e)
    (hexp : now - e.timestamp > c.ttl) :
    c.Get key now =
      (none, { c with entries := c.entries.eraseP (fun x => x.key == key) }) := by
  unfold TTLCache.Get
  rw [hf]
  simp [hexp]

lemma Get_hit_of_some {c : TTLCache V} {key : String} {now : Nat} {v : V}
    (h : (c.Get key now).1 = some v) :
    ∃ e, c.entries.find? (fun x => x.key == key) = some e ∧
      ¬ now - e.timestamp > c.ttl ∧ v = e.value := by
  unfold TTLCache.Get at h
  cases hf : c.entries.find? (fun x => x.key == key) with
  | none => rw [hf] at h; simp at h
  | some e =>
    rw [hf] at h
    by_cases hexp : now - e.timestamp > c.ttl
    · simp [hexp] at h
    · refine ⟨e, rfl, hexp, ?_⟩
      simpa [hexp] using h.symm

/-- On a hit, `Get` only reorders the LRU list: the size and the key set
are unchanged, and the hit key's entry now sits at the back (most recently
used). -/
lemma Get_hit_frame {c : TTLCache V} {key : String} {now : Nat} {v : V}
    (h : (c.Get key now).1 = some v) :
    (c.Get key now).2.Size = c.Size ∧
    (∀ k, (c.Get key now).2.containsKey k = c.containsKey k) ∧
    ((c.Get key now).2.entries.getLast?.map (fun e => e.key)) = some key := by
  obtain ⟨e, hf, hfresh, -⟩ := Get_hit_of_some h
  obtain ⟨l1, l2, hl, -, hek, her⟩ := find?_key_decomp hf
  rw [Get_hit hf hfresh]
  refine ⟨?_, ?_, ?_⟩
  · simp only [TTLCache.Size, her, List.length_append, List.length_singleton]
    rw [hl]
    simp only [List.length_append, List.length_cons]
    omega
  · intro k
    simp only [TTLCache.containsKey]
    rw [Bool.eq_iff_iff, List.any_eq_true, List.any_eq_true]
    constructor
    · rintro ⟨x, hx, hk⟩
      rw [her] at hx
      refine ⟨x, ?_, hk⟩
      rw [hl]
      rcases List.mem_append.mp hx with hx' | hx'
      · rcases List.mem_append.mp hx' with h1 | h2
        · exact List.mem_append.mpr (Or.inl h1)
        · exact List.mem_append.mpr (Or.inr (List.mem_cons_of_mem _ h2))
      · obtain rfl : x = e := by simpa using hx'
        exact List.mem_append.mpr (Or.inr (List.mem_cons_self _ _))
    · rintro ⟨x, hx, hk⟩
      refine ⟨x, ?_, hk⟩
      rw [her]
      rw [hl] at hx
      rcases List.mem_append.mp hx with h1 | h2
      · exact List.mem_append.mpr (Or.inl (List.mem_append.mpr (Or.inl h1)))
      · rcases List.mem_cons.mp h2 with rfl | h2'
        · exact List.mem_append.mpr (Or.inr (by simp))
        · exact List.mem_append.mpr (Or.inl (List.mem_append.mpr (Or.inr h2')))
  · simp [her, hek]

/-- An entry found expired at `Get` time is removed: the call misses, the
entry is gone, and the size drops by exactly one. -/
lemma Get_expired_removes {c : TTLCache V} {key : String} {now : Nat}
    {e : CacheEntry V}
    (hnd : c.keysNodup)
    (hf : c.entries.find? (fun x => x.key == key) = some e)
    (hexp : now - e.timestamp > c.ttl) :
    (c.Get key now).1 = none ∧
    (c.Get key now).2.Size = c.Size - 1 ∧
    (c.Get key now).2.containsKey key = false := by
  obtain ⟨l1, l2, hl, hl1, hek, her⟩ := find?_key_decomp hf
  rw [Get_expired hf hexp]
  refine ⟨rfl, ?_, ?_⟩
  · simp only [TTLCache.Size, her]
    rw [hl]
    simp only [List.length_append, List.length_cons]
    omega
  · rw [not_containsKey_iff]
    intro x hx
    rw [her] at hx
    rw [TTLCache.keysNodup, hl, List.map_append, List.map_cons] at hnd
    rcases List.mem_append.mp hx with h1 | h2
    · exact hl1 x h1
    · intro hk
      have : e.key ∈ l2.map (fun y => y.key) :=
        List.mem_map.mpr ⟨x, h2, by rw [hk, hek]⟩
      have hmid := (List.nodup_middle.mp (by simpa using hnd))
      exact (List.nodup_cons.mp hmid).1 (List.mem_append.mpr (Or.inr this))

/-- The invariants `putRun` maintains from an empty cache: configuration
unchanged, size bounded by a positive capacity, keys pairwise distinct. -/
lemma putRun_invariant {V : Type} {N t : Nat} (hN : 1 ≤ N) :
    ∀ (ops : List (String × V × Nat)) (c : TTLCache V),
      c.maxSize = N → c.ttl = t → c.entries.length ≤ N → c.keysNodup →
      (putRun c ops).maxSize = N ∧ (putRun c ops).ttl = t ∧
      (putRun c ops).entries.length ≤ N ∧ (putRun c ops).keysNodup
  | [], c => fun hm ht hl hn => ⟨hm, ht, hl, hn⟩
  | (k, v, tm) :: rest, c => by
    intro hm ht hl hn
    exact putRun_invariant hN rest (c.Put k v tm)
      (by rw [Put_maxSize, hm]) (by rw [Put_ttl, ht])
      (by
        have hlen := Put_length_le (c := c) k v tm
          (by rw [hm]; exact hN) (by rw [hm]; exact hl)
        rw [hm] at hlen
        exact hlen)
      (Put_keysNodup k v tm hn)

lemma putRun_append (c : TTLCache V) (l1 l2 : List (String × V × Nat)) :
    putRun c (l1 ++ l2) = putRun (putRun c l1) l2 := by
  induction l1 generalizing c with
  | nil => rfl
  | cons o rest ih =>
    obtain ⟨k, v, tm⟩ := o
    simp only [List.cons_append, putRun]
    exact ih (c.Put k v tm)

/-- Inserting a fresh key into a full cache (with the reachable-state
invariants) evicts exactly the least-recently-used entry: the size stays at
capacity, the LRU key disappears, every other present key survives. -/
lemma Put_evicts_lru {c : TTLCache V} {k : String} (v : V) (tm : Nat)
    (hnd : c.keysNodup) (hbound : c.entries.length ≤ c.maxSize)
    (hfull : c.maxSize ≤ c.entries.length) (hpos : 1 ≤ c.maxSize)
    (hfresh : c.containsKey k = false) :
    (c.Put k v tm).Size = c.maxSize ∧
    (∀ lk, c.lruKey = some lk → (c.Put k v tm).containsKey lk = false) ∧
    (∀ k', c.lruKey ≠ some k' → c.containsKey k' = true →
      (c.Put k v tm).containsKey k' = true) := by
  have hput := @Put_fresh_at_capacity V c k v tm hfresh hfull
  cases hent : c.entries with
  | nil => rw [hent] at hfull; simp at hfull; omega
  | cons e0 tl =>
    have hlen : tl.length + 1 = c.maxSize := by
      have := hbound
      have := hfull
      rw [hent] at *
      simp only [List.length_cons] at *
      omega
    have htail : c.entries.tail = tl := by rw [hent]; rfl
    refine ⟨?_, ?_, ?_⟩
    · simp only [TTLCache.Size, hput, htail, List.length_append,
        List.length_singleton]
      omega
    · intro lk hlk
      have hlk0 : lk = e0.key := by
        simp only [TTLCache.lruKey, hent, List.head?_cons, Option.map_some] at hlk
        exact (Option.some_inj.mp hlk).symm
      subst hlk0
      rw [not_containsKey_iff]
      intro x hx
      rw [hput, htail] at hx
      rcases List.mem_append.mp hx with hx' | hx'
      · intro hk
        rw [TTLCache.keysNodup, hent, List.map_cons, List.nodup_cons] at hnd
        exact hnd.1 (List.mem_map.mpr ⟨x, hx', hk⟩)
      · obtain rfl : x = ({ key := k, value := v, timestamp := tm } : CacheEntry V) := by
          simpa using hx'
        intro hk
        have hke : k = e0.key := by simpa using hk
        have : c.containsKey k = true := by
          rw [TTLCache.containsKey, List.any_eq_true]
          exact ⟨e0, by rw [hent]; exact List.mem_cons_self _ _, by simp [hke]⟩
        rw [this] at hfresh
        exact Bool.true_eq_false.mp hfresh
    · intro k' hne hk'
      rw [TTLCache.containsKey, List.any_eq_true] at hk' ⊢
      obtain ⟨x, hx, hxk⟩ := hk'
      rw [hent] at hx
      rcases List.mem_cons.mp hx with rfl | hx'
      · exfalso
        apply hne
        have hxx : x.key = k' := by simpa using hxk
        simp only [TTLCache.lruKey, hent, List.head?_cons]
        simp [hxx]
      · exact ⟨x, by rw [hput, htail]; exact List.mem_append.mpr (Or.inl hx'), hxk⟩

/-- Inserting pairwise-distinct fresh keys that fit within the remaining
capacity appends them to the LRU list in order, evicting nothing. -/
lemma putRun_fresh_fills {V : Type} :
    ∀ (ops : List (String × V × Nat)) (c : TTLCache V),
      c.entries.length + ops.length ≤ c.maxSize →
      (∀ o ∈ ops, c.containsKey o.1 = false) →
      (ops.map (fun o => o.1)).Nodup →
      (putRun c ops).entries =
        c.entries ++ ops.map (fun o => CacheEntry.mk o.1 o.2.1 o.2.2)
  | [], c => by intro _ _ _; simp [putRun]
  | (k, v, tm) :: rest, c => by
    intro hroom hfresh hnd
    have hkfresh : c.containsKey k = false := hfresh (k, v, tm) (by simp)
    have hrm : c.entries.length < c.maxSize := by
      simp only [List.length_cons] at hroom
      omega
    have hstep := @Put_fresh_under_capacity V c k v tm hkfresh hrm
    have hrest := putRun_fresh_fills rest (c.Put k v tm)
      (by
        rw [hstep, Put_maxSize, List.length_append, List.length_singleton]
        simp only [List.length_cons] at hroom
        omega)
      (by
        intro o ho
        rw [not_containsKey_iff]
        intro x hx
        rw [hstep] at hx
        rcases List.mem_append.mp hx with hx' | hx'
        · exact not_containsKey_iff.mp (hfresh o (List.mem_cons_of_mem _ ho)) x hx'
        · obtain rfl : x = ({ key := k, value := v, timestamp := tm } : CacheEntry V) := by
            simpa using hx'
          simp only [List.map_cons, List.nodup_cons] at hnd
          intro hk
          have hko : k = o.1 := by simpa using hk
          exact hnd.1 (by rw [hko]; exact List.mem_map.mpr ⟨o, ho, rfl⟩))
      (by simp only [List.map_cons, List.nodup_cons] at hnd; exact hnd.2)
    simp only [putRun]
    rw [hrest, hstep]
    simp [List.append_assoc]

/-! ### Claim C2 -/

/-- C2, counterexample: the claim quantifies over every configured
capacity, but with capacity `0` a single `Put` into the empty cache makes
`Size() = 1 > 0` — the eviction branch finds no front entry to remove
(`oldest != nil` fails on the empty list) and the insertion proceeds
anyway. -/
theorem capacity_zero_counterexample :
    ¬ (((NewTTLCache Nat 0 100).Put "a" 1 0).Size ≤ 0) := by decide

/-- C2 (amended: for capacities `N ≥ 1`): `Size` never exceeds `N` under any
sequence of `Put`s from the empty cache; inserting a fresh key when the
cache holds at least `N` entries keeps `Size = N`, removes exactly the
least-recently-used key, and retains every other present key; and after
inserting `N+1` pairwise-distinct keys into the empty cache, `Size = N` and
the first-inserted (least-recently-used) key is absent. -/
theorem putRun_capacity_bound_and_lru_eviction {V : Type} (N t : Nat)
    (hN : 1 ≤ N) :
    (∀ ops : List (String × V × Nat),
      (putRun (NewTTLCache V N t) ops).Size ≤ N) ∧
    (∀ (ops : List (String × V × Nat)) (k : String) (v : V) (tm : Nat),
      N ≤ (putRun (NewTTLCache V N t) ops).Size →
      (putRun (NewTTLCache V N t) ops).containsKey k = false →
      ((putRun (NewTTLCache V N t) ops).Put k v tm).Size = N ∧
      (∀ lk, (putRun (NewTTLCache V N t) ops).lruKey = some lk →
        ((putRun (NewTTLCache V N t) ops).Put k v tm).containsKey lk = false) ∧
      (∀ k', (putRun (NewTTLCache V N t) ops).lruKey ≠ some k' →
        (putRun (NewTTLCache V N t) ops).containsKey k' = true →
        ((putRun (NewTTLCache V N t) ops).Put k v tm).containsKey k' = true)) ∧
    (∀ ops : List (String × V × Nat), ops.length = N + 1 →
      (ops.map (fun o => o.1)).Nodup →
      (putRun (NewTTLCache V N t) ops).Size = N ∧
      (∀ o0, ops.head? = some o0 →
        (putRun (NewTTLCache V N t) ops).containsKey o0.1 = false)) := by
  have hinv : ∀ ops : List (String × V × Nat),
      (putRun (NewTTLCache V N t) ops).maxSize = N ∧
      (putRun (NewTTLCache V N t) ops).ttl = t ∧
      (putRun (NewTTLCache V N t) ops).entries.length ≤ N ∧
      (putRun (NewTTLCache V N t) ops).keysNodup := fun ops =>
    putRun_invariant hN ops (NewTTLCache V N t) rfl rfl
      (by simp [NewTTLCache]) (by simp [TTLCache.keysNodup, NewTTLCache])
  refine ⟨fun ops => (hinv ops).2.2.1, ?_, ?_⟩
  · intro ops k v tm hfull hfresh
    obtain ⟨hmax, -, hbound, hnd⟩ := hinv ops
    have h := Put_evicts_lru (c := putRun (NewTTLCache V N t) ops) v tm hnd
      (by rw [hmax]; exact hbound) (by rw [hmax]; exact hfull)
      (by rw [hmax]; exact hN) hfresh
    rw [hmax] at h
    exact h
  · intro ops hlen hnd
    have hne : ops ≠ [] := by
      intro h
      rw [h] at hlen
      simp at hlen
    have hsplit := List.dropLast_append_getLast hne
    have hfl : ops.dropLast.length = N := by
      have := congrArg List.length hsplit
      simp only [List.length_append, List.length_singleton] at this
      omega
    have hfrontnd : (ops.dropLast.map (fun o => o.1)).Nodup :=
      ((List.dropLast_sublist ops).map _).nodup hnd
    have hfill := putRun_fresh_fills ops.dropLast (NewTTLCache V N t)
      (by simp [NewTTLCache, hfl]) (fun o _ => rfl) hfrontnd
    have hc1keys : (putRun (NewTTLCache V N t) ops.dropLast).entries.map
        (fun e => e.key) = ops.dropLast.map (fun o => o.1) := by
      rw [hfill]
      simp [NewTTLCache, List.map_map]
      rfl
    have hc1len : (putRun (NewTTLCache V N t) ops.dropLast).entries.length = N := by
      have := congrArg List.length hc1keys
      simp only [List.length_map] at this
      rw [this, hfl]
    have hc1nd : (putRun (NewTTLCache V N t) ops.dropLast).keysNodup := by
      rw [TTLCache.keysNodup, hc1keys]
      exact hfrontnd
    have hc1max : (putRun (NewTTLCache V N t) ops.dropLast).maxSize = N :=
      (hinv ops.dropLast).1
    have hlastfresh :
        (putRun (NewTTLCache V N t) ops.dropLast).containsKey
          (ops.getLast hne).1 = false := by
      rw [not_containsKey_iff]
      intro x hx hk
      have hxk : x.key ∈ ops.dropLast.map (fun o => o.1) := by
        rw [← hc1keys]
        exact List.mem_map.mpr ⟨x, hx, rfl⟩
      rw [← hsplit, List.map_append, List.nodup_append] at hnd
      exact hnd.2.2 (hk ▸ hxk) (by simp)
    have hevict := Put_evicts_lru
      (c := putRun (NewTTLCache V N t) ops.dropLast)
      (k := (ops.getLast hne).1) (ops.getLast hne).2.1 (ops.getLast hne).2.2
      hc1nd (by rw [hc1max, hc1len]) (by rw [hc1max, hc1len])
      (by rw [hc1max]; exact hN) hlastfresh
    have hrun : putRun (NewTTLCache V N t) ops =
        (putRun (NewTTLCache V N t) ops.dropLast).Put
          (ops.getLast hne).1 (ops.getLast hne).2.1 (ops.getLast hne).2.2 := by
      conv_lhs => rw [← hsplit]
      rw [putRun_append]
      rfl
    refine ⟨by rw [hrun]; rw [hevict.1, hc1max], ?_⟩
    intro o0 ho0
    have hfrontne : ops.dropLast ≠ [] := by
      intro h
      rw [h] at hfl
      simp at hfl
      omega
    obtain ⟨f0, frest, hf⟩ := List.exists_cons_of_ne_nil hfrontne
    have ho0f : o0 = f0 := by
      have : ops.head? = some f0 := by
        rw [← hsplit, hf]
        rfl
      rw [this] at ho0
      exact (Option.some_inj.mp ho0).symm
    have hlru : (putRun (NewTTLCache V N t) ops.dropLast).lruKey = some o0.1 := by
      rw [TTLCache.lruKey]
      have : (putRun (NewTTLCache V N t) ops.dropLast).entries.head?.map
          (fun e => e.key) =
          (ops.dropLast.map (fun o => o.1)).head? := by
        rw [← hc1keys, List.head?_map]
      rw [this, hf]
      simp [ho0f]
    rw [hrun]
    exact hevict.2.1 o0.1 hlru

/-- C2 witness: the amended theorem applied at capacity 2 — any three
distinct-key `Put`s keep the size at 2 and evict the first key. -/
theorem putRun_capacity_witness :
    (putRun (NewTTLCache Nat 2 100) [("a", 1, 0), ("b", 2, 1), ("c", 3, 2)]).Size ≤ 2 ∧
    (putRun (NewTTLCache Nat 2 100) [("a", 1, 0), ("b", 2, 1), ("c", 3, 2)]).Size = 2 ∧
    (putRun (NewTTLCache Nat 2 100)
      [("a", 1, 0), ("b", 2, 1), ("c", 3, 2)]).containsKey "a" = false := by
  have h := putRun_capacity_bound_and_lru_eviction (V := Nat) 2 100 (by decide)
  have h3 := h.2.2 [("a", 1, 0), ("b", 2, 1), ("c", 3, 2)] (by decide) (by decide)
  exact ⟨h.1 _, h3.1, h3.2 ("a", 1, 0) rfl⟩

/-! ### Claims C3 and C8 -/

/-- C3: an entry that is structurally present but older than the TTL still
counts toward `Size` (no active sweeping); a `Get` performed once its age
exceeds the TTL reports not-found, removes it, and the next `Size` reflects
the removal (one fewer entry, key absent). -/
theorem lazy_ttl_expiry {V : Type} {c : TTLCache V} {key : String} {now : Nat}
    {e : CacheEntry V}
    (hnd : c.keysNodup)
    (hf : c.entries.find? (fun x => x.key == key) = some e)
    (hexp : now - e.timestamp > c.ttl) :
    1 ≤ c.Size ∧
    (c.Get key now).1 = none ∧
    (c.Get key now).2.Size = c.Size - 1 ∧
    (c.Get key now).2.containsKey key = false := by
  have h := Get_expired_removes hnd hf hexp
  refine ⟨?_, h.1, h.2.1, h.2.2⟩
  have hmem := List.mem_of_find?_eq_some hf
  have hpos : 0 < c.entries.length :=
    List.length_pos.mpr (List.ne_nil_of_mem hmem)
  simpa [TTLCache.Size] using hpos

/-- C3 witness: a singleton cache with TTL 10 read at age 11. -/
theorem lazy_ttl_expiry_witness :
    1 ≤ (TTLCache.mk 2 10 [CacheEntry.mk "a" (1 : Nat) 0]).Size ∧
    ((TTLCache.mk 2 10 [CacheEntry.mk "a" (1 : Nat) 0]).Get "a" 11).1 = none ∧
    ((TTLCache.mk 2 10 [CacheEntry.mk "a" (1 : Nat) 0]).Get "a" 11).2.Size =
      (TTLCache.mk 2 10 [CacheEntry.mk "a" (1 : Nat) 0]).Size - 1 ∧
    ((TTLCache.mk 2 10 [CacheEntry.mk "a" (1 : Nat) 0]).Get "a" 11).2.containsKey
      "a" = false :=
  lazy_ttl_expiry (e := CacheEntry.mk "a" (1 : Nat) 0)
    (by simp [TTLCache.keysNodup]) (by decide) (by decide)

/-- C8: in the concrete capacity-2 scenario (insert `a`, `b`, `c`, then
`Get a`, then insert `d`) the entry evicted by the final insertion is `b`
and not `a` — `b` is the least-recently-used entry at that point (`a` was
already evicted when `c` was inserted, so the `Get` missed and changed
nothing); in general a `Get` hit moves its entry to the back of the LRU
list (most recently used), and inserting a fresh key into a full cache
removes exactly the front (least-recently-used) entry. -/
theorem lru_recency :
    ((putRun (NewTTLCache Nat 2 1000)
        [("a", 1, 0), ("b", 2, 1), ("c", 3, 2)]).Get "a" 3).2.lruKey =
      some "b" ∧
    (((putRun (NewTTLCache Nat 2 1000)
        [("a", 1, 0), ("b", 2, 1), ("c", 3, 2)]).Get "a" 3).2.Put "d" 4
          4).containsKey "b" = false ∧
    (((putRun (NewTTLCache Nat 2 1000)
        [("a", 1, 0), ("b", 2, 1), ("c", 3, 2)]).Get "a" 3).2.Put "d" 4
          4).containsKey "c" = true ∧
    (((putRun (NewTTLCache Nat 2 1000)
        [("a", 1, 0), ("b", 2, 1), ("c", 3, 2)]).Get "a" 3).2.Put "d" 4
          4).containsKey "d" = true ∧
    (∀ (V : Type) (c : TTLCache V) (k : String) (now : Nat) (v : V),
      (c.Get k now).1 = some v →
      ((c.Get k now).2.entries.getLast?.map (fun e => e.key)) = some k) ∧
    (∀ (V : Type) (c : TTLCache V) (k : String) (v : V) (tm : Nat),
      c.containsKey k = false → c.maxSize ≤ c.entries.length →
      (c.Put k v tm).entries =
        c.entries.tail ++ [CacheEntry.mk k v tm]) := by
  refine ⟨by decide, by decide, by decide, by decide, ?_, ?_⟩
  · intro V c k now v h
    exact (Get_hit_frame h).2.2
  · intro V c k v tm hfresh hfull
    exact Put_fresh_at_capacity v tm hfresh hfull

/-- C8 witness: the general clauses applied to concrete caches — a hit on
`"a"` leaves its entry at the back, and a fresh insert into a full
capacity-1 cache drops the front entry. -/
theorem lru_recency_witness :
    (((TTLCache.mk 2 1000 [CacheEntry.mk "a" (5 : Nat) 0]).Get "a"
        1).2.entries.getLast?.map (fun e => e.key)) = some "a" ∧
    ((TTLCache.mk 1 1000 [CacheEntry.mk "x" (7 : Nat) 0]).Put "y" 8 2).entries =
      ([CacheEntry.mk "x" (7 : Nat) 0].tail ++ [CacheEntry.mk "y" 8 2]) := by
  have h := lru_recency
  exact ⟨h.2.2.2.2.1 Nat _ "a" 1 5 (by decide),
         h.2.2.2.2.2 Nat _ "y" 8 2 (by decide) (by decide)⟩

/-! ### Lemmas about `interpolateTemplate` (claim C10) -/

/-- The generator's success equation: with a registered template it
returns exactly the artifact built from the resolved language table. -/
lemma getLocalizedComponent_eq
    (templates : List (String × ComponentTemplate))
    (db : List (String × List (String × String)))
    (componentType lang : String) (t : Nat) (tpl : ComponentTemplate)
    (hT : templates.lookup componentType = some tpl) :
    getLocalizedComponent templates db componentType lang t =
      Except.ok {
        componentName := tpl.componentName
        componentType := tpl.componentType
        language := actualLangFor db lang
        template := interpolateTemplate tpl.template
          (tpl.requiredKeys.map (fun key =>
            (key, match (resolvedTable db lang).lookup key with
                  | some value => value
                  | none => "[" ++ key ++ "]")))
        localizedData := tpl.requiredKeys.map (fun key =>
          (key, match (resolvedTable db lang).lookup key with
                | some value => value
                | none => "[" ++ key ++ "]"))
        metadata := {
          componentID := componentType ++ "_" ++ actualLangFor db lang ++ "_" ++
            toString (t % 10000)
          lastUpdated := toString t
          requiredKeys := tpl.requiredKeys }
        cached := false } := by
  unfold getLocalizedComponent
  rw [hT]

/-- The generator's failure equation: an unregistered component type. -/
lemma getLocalizedComponent_err
    (templates : List (String × ComponentTemplate))
    (db : List (String × List (String × String)))
    (componentType lang : String) (t : Nat)
    (hT : templates.lookup componentType = none) :
    getLocalizedComponent templates db componentType lang t =
      Except.error ("component type \x27" ++ componentType ++ "\x27 not found") := by
  unfold getLocalizedComponent
  rw [hT]

lemma lookup_map_requiredKeys (tbl : List (String × String)) :
    ∀ (keys : List String) (k : String), k ∈ keys →
      (keys.map (fun key =>
        (key, match tbl.lookup key with
              | some value => value
              | none => "[" ++ key ++ "]"))).lookup k =
      some (match tbl.lookup k with
            | some value => value
            | none => "[" ++ k ++ "]")
  | [], k => by intro h; simp at h
  | key :: rest, k => by
    intro h
    by_cases hk : k = key
    · subst hk
      simp [List.lookup_cons]
    · rcases List.mem_cons.mp h with h' | h'
      · exact absurd h' hk
      · rw [List.map_cons, List.lookup_cons]
        have : (k == key) = false := by simp [hk]
        rw [this]
        exact lookup_map_requiredKeys tbl rest k h'

/-- C7: for any registered template, generation always succeeds, and any
required key missing from the resolved language table appears in
`localizedData` as the bracketed placeholder `[key]` rather than failing
the generation. -/
theorem missing_key_placeholder
    (templates : List (String × ComponentTemplate))
    (db : List (String × List (String × String)))
    (componentType lang : String) (t : Nat) (tpl : ComponentTemplate)
    (hT : templates.lookup componentType = some tpl) :
    ∃ comp, getLocalizedComponent templates db componentType lang t =
        Except.ok comp ∧
      ∀ k ∈ tpl.requiredKeys, (resolvedTable db lang).lookup k = none →
        comp.localizedData.lookup k = some ("[" ++ k ++ "]") := by
  refine ⟨_, getLocalizedComponent_eq templates db componentType lang t tpl hT, ?_⟩
  intro k hk hmiss
  rw [lookup_map_requiredKeys (resolvedTable db lang) tpl.requiredKeys k hk, hmiss]

/-- C7 witness: a template requiring `title_key` generated against a
localization database whose only (empty) table is English. -/
theorem missing_key_placeholder_witness :
    ∃ comp, getLocalizedComponent
        [("w", ComponentTemplate.mk "W" "functional" "T" ["title_key"])]
        [("en", [])] "w" "fr" 0 = Except.ok comp ∧
      ∀ k ∈ (ComponentTemplate.mk "W" "functional" "T" ["title_key"]).requiredKeys,
        (resolvedTable [("en", [])] "fr").lookup k = none →
        comp.localizedData.lookup k = some ("[" ++ k ++ "]") :=
  missing_key_placeholder _ _ "w" "fr" 0 _ (by decide)

/-- C4: the artifact identifier is derived from the wall clock as
`UnixMilli() % 10000`, so two generations of the same component/language
pair made 10000 ms apart (or within the same millisecond) carry the very
same `component_id` even though their rendered template and localized
values are equal — the identifiers are not globally distinguishing, as the
claim (and the spec's generator contract) requires. -/
theorem component_id_collision :
    (getLocalizedComponent componentTemplates localizationDB "welcome" "en"
        0).toOption.map (fun c => c.metadata.componentID) =
      some "welcome_en_0" ∧
    (getLocalizedComponent componentTemplates localizationDB "welcome" "en"
        10000).toOption.map (fun c => c.metadata.componentID) =
      some "welcome_en_0" ∧
    (getLocalizedComponent componentTemplates localizationDB "welcome" "en"
        0).toOption.map (fun c => c.template) =
      (getLocalizedComponent componentTemplates localizationDB "welcome" "en"
        10000).toOption.map (fun c => c.template) ∧
    (getLocalizedComponent componentTemplates localizationDB "welcome" "en"
        0).toOption.map (fun c => c.localizedData) =
      (getLocalizedComponent componentTemplates localizationDB "welcome" "en"
        10000).toOption.map (fun c => c.localizedData) :=
  ⟨rfl, rfl, rfl, rfl⟩

/-! ### Claims about the endpoint: C9, C5, C6, C1 -/

/-- C9: a fresh local-cache hit is served as-is with `cached = true`; the
handler performs no local `Put`, no remote `Store`, and no remote TTL
refresh on that path — the only cache-state change is `Get`'s own recency
update, which preserves the size and the key set. -/
theorem local_hit_no_writes
    (cache : TTLCache LocalizedComponent) (remote : Option RemoteTier)
    (componentType lang : String) (now : Nat) (comp : LocalizedComponent)
    (cache1 : TTLCache LocalizedComponent)
    (hGet : cache.Get (cacheKeyFor localizationDB componentType lang) now =
      (some comp, cache1)) :
    getLocalizedComponentEndpoint componentTemplates localizationDB cache
        remote componentType lang now =
      (EndpointResult.ok { comp with cached := true }, cache1, []) ∧
    cache1.Size = cache.Size ∧
    (∀ k, cache1.containsKey k = cache.containsKey k) := by
  refine ⟨?_, ?_⟩
  · simp only [getLocalizedComponentEndpoint]
    rw [hGet]
  · have h1 : (cache.Get (cacheKeyFor localizationDB componentType lang)
        now).1 = some comp := by rw [hGet]
    have hframe := Get_hit_frame h1
    have h2 : (cache.Get (cacheKeyFor localizationDB componentType lang)
        now).2 = cache1 := by rw [hGet]
    rw [h2] at hframe
    exact ⟨hframe.1, hframe.2.1⟩

/-- C9 witness: a one-entry cache hit on the normalized key. -/
theorem local_hit_no_writes_witness :
    getLocalizedComponentEndpoint componentTemplates localizationDB
        (TTLCache.mk 50 600000
          [CacheEntry.mk "component:welcome:en" sampleComponent 0]) none
        "welcome" "en" 1 =
      (EndpointResult.ok { sampleComponent with cached := true },
        TTLCache.mk 50 600000
          [CacheEntry.mk "component:welcome:en" sampleComponent 0], []) ∧
    (TTLCache.mk 50 600000
        [CacheEntry.mk "component:welcome:en" sampleComponent 0]).Size =
      (TTLCache.mk 50 600000
        [CacheEntry.mk "component:welcome:en" sampleComponent 0]).Size ∧
    (∀ k, (TTLCache.mk 50 600000
        [CacheEntry.mk "component:welcome:en" sampleComponent 0]).containsKey k =
      (TTLCache.mk 50 600000
        [CacheEntry.mk "component:welcome:en" sampleComponent 0]).containsKey k) :=
  local_hit_no_writes _ none "welcome" "en" 1 sampleComponent _ rfl

/-- C5: an unknown component type produces the not-found response carrying
the generator's error message and the (nonempty) list of registered
component identifiers, and the failed request writes nothing: the local
cache is returned unchanged and no remote operation is attempted. -/
theorem unknown_component_no_cache_writes
    (cache : TTLCache LocalizedComponent) (remote : Option RemoteTier)
    (componentType lang : String) (now : Nat)
    (hT : componentTemplates.lookup componentType = none)
    (hC : cache.containsKey (cacheKeyFor localizationDB componentType lang) =
      false)
    (hR : remote = none ∨ ∃ r e, remote = some r ∧
      r.fetch (cacheKeyFor localizationDB componentType lang) =
        Except.error e) :
    getLocalizedComponentEndpoint componentTemplates localizationDB cache
        remote componentType lang now =
      (EndpointResult.notFound
        ("component type \x27" ++ componentType ++ "\x27 not found")
        (componentTemplates.map Prod.fst), cache, []) ∧
    componentTemplates.map Prod.fst ≠ [] := by
  have hget := Get_of_not_contains now hC
  have hgen := getLocalizedComponent_err componentTemplates localizationDB
    componentType lang now hT
  refine ⟨?_, by decide⟩
  rcases hR with rfl | ⟨r, e, rfl, hf⟩
  · simp only [getLocalizedComponentEndpoint]
    rw [hget, hgen]
  · simp only [getLocalizedComponentEndpoint]
    rw [hget, hf, hgen]

/-- C5 witness: `nonexistent` requested against an empty cache with the
remote tier absent. -/
theorem unknown_component_no_cache_writes_witness :
    getLocalizedComponentEndpoint componentTemplates localizationDB
        (NewTTLCache LocalizedComponent 50 600000) none "nonexistent" "en" 0 =
      (EndpointResult.notFound
        ("component type \x27" ++ "nonexistent" ++ "\x27 not found")
        (componentTemplates.map Prod.fst),
        NewTTLCache LocalizedComponent 50 600000, []) ∧
    componentTemplates.map Prod.fst ≠ [] :=
  unknown_component_no_cache_writes _ none "nonexistent" "en" 0
    (by decide) (by decide) (Or.inl rfl)

/-- C6: with a registered component, a remote tier whose fetch fails (or no
remote client at all) never fails the request: the handler still responds
with an artifact, and a failing fetch is handled exactly like an absent
remote tier — same response and same final local cache. -/
theorem remote_failure_absorbed
    (cache : TTLCache LocalizedComponent) (r : RemoteTier)
    (componentType lang : String) (now : Nat) (tpl : ComponentTemplate)
    (e : String)
    (hT : componentTemplates.lookup componentType = some tpl)
    (hR : r.fetch (cacheKeyFor localizationDB componentType lang) =
      Except.error e) :
    (∃ comp, (getLocalizedComponentEndpoint componentTemplates localizationDB
        cache (some r) componentType lang now).1 = EndpointResult.ok comp) ∧
    (getLocalizedComponentEndpoint componentTemplates localizationDB cache
        (some r) componentType lang now).1 =
      (getLocalizedComponentEndpoint componentTemplates localizationDB cache
        none componentType lang now).1 ∧
    (getLocalizedComponentEndpoint componentTemplates localizationDB cache
        (some r) componentType lang now).2.1 =
      (getLocalizedComponentEndpoint componentTemplates localizationDB cache
        none componentType lang now).2.1 := by
  rcases hget : cache.Get (cacheKeyFor localizationDB componentType lang) now
    with ⟨o, cache1⟩
  cases o with
  | some comp =>
    refine ⟨⟨{ comp with cached := true }, ?_⟩, ?_, ?_⟩ <;>
      (simp only [getLocalizedComponentEndpoint]; rw [hget])
  | none =>
    cases hg2 : getLocalizedComponent componentTemplates localizationDB
        componentType lang now with
    | error err =>
      rw [getLocalizedComponent_eq componentTemplates localizationDB
        componentType lang now tpl hT] at hg2
      exact Except.noConfusion hg2
    | ok comp =>
      refine ⟨⟨{ comp with cached := false }, ?_⟩, ?_, ?_⟩ <;>
        (simp only [getLocalizedComponentEndpoint]; rw [hget, hR, hg2])

/-- C6 witness: `welcome` with an always-failing remote tier. -/
theorem remote_failure_absorbed_witness :
    (∃ comp, (getLocalizedComponentEndpoint componentTemplates localizationDB
        (NewTTLCache LocalizedComponent 50 600000)
        (some (RemoteTier.mk (fun _ => Except.error "connection refused")))
        "welcome" "en" 0).1 = EndpointResult.ok comp) ∧
    (getLocalizedComponentEndpoint componentTemplates localizationDB
        (NewTTLCache LocalizedComponent 50 600000)
        (some (RemoteTier.mk (fun _ => Except.error "connection refused")))
        "welcome" "en" 0).1 =
      (getLocalizedComponentEndpoint componentTemplates localizationDB
        (NewTTLCache LocalizedComponent 50 600000) none "welcome" "en" 0).1 ∧
    (getLocalizedComponentEndpoint componentTemplates localizationDB
        (NewTTLCache LocalizedComponent 50 600000)
        (some (RemoteTier.mk (fun _ => Except.error "connection refused")))
        "welcome" "en" 0).2.1 =
      (getLocalizedComponentEndpoint componentTemplates localizationDB
        (NewTTLCache LocalizedComponent 50 600000) none "welcome" "en" 0).2.1 := by
  obtain ⟨tpl, htpl⟩ : ∃ tpl, componentTemplates.lookup "welcome" = some tpl :=
    ⟨_, rfl⟩
  exact remote_failure_absorbed _ _ "welcome" "en" 0 tpl "connection refused"
    htpl rfl

/-- C1: a requested language with no localization table is collapsed onto
the `en` fallback: the cache key equals the one built for `en`, the
generated artifact's `language` field is `en`, and concretely the
unsupported requests `zh` then `ja` for `welcome` share one cache slot —
the second is a cache hit and the cache holds exactly one entry, under the
key `component:welcome:en`. -/
theorem language_fallback_normalization
    (componentType lang : String) (tpl : ComponentTemplate) (t : Nat)
    (hT : componentTemplates.lookup componentType = some tpl)
    (hL : localizationDB.lookup lang = none) :
    cacheKeyFor localizationDB componentType lang =
      "component:" ++ componentType ++ ":en" ∧
    cacheKeyFor localizationDB componentType lang =
      cacheKeyFor localizationDB componentType "en" ∧
    (∃ comp, getLocalizedComponent componentTemplates localizationDB
        componentType lang t = Except.ok comp ∧ comp.language = "en") ∧
    (let step1 := getLocalizedComponentEndpoint componentTemplates
        localizationDB (NewTTLCache LocalizedComponent 50 600000) none
        "welcome" "zh" 0
     let step2 := getLocalizedComponentEndpoint componentTemplates
        localizationDB step1.2.1 none "welcome" "ja" 1
     step1.1.okComponent.map (fun c => (c.language, c.cached)) =
        some ("en", false) ∧
     step2.1.okComponent.map (fun c => (c.language, c.cached)) =
        some ("en", true) ∧
     step1.2.1.Size = 1 ∧ step2.2.1.Size = 1 ∧
     step1.2.1.containsKey "component:welcome:en" = true) := by
  have hkey : cacheKeyFor localizationDB componentType lang =
      "component:" ++ componentType ++ ":en" := by
    unfold cacheKeyFor actualLangFor
    rw [hL]
    simp only [Option.isSome_none, Bool.false_eq_true, if_false]
    rw [String.append_assoc]
    rfl
  have hkey2 : cacheKeyFor localizationDB componentType "en" =
      "component:" ++ componentType ++ ":en" := by
    unfold cacheKeyFor
    have ha : actualLangFor localizationDB "en" = "en" := rfl
    rw [ha, String.append_assoc]
    rfl
  refine ⟨hkey, ?_, ?_, ⟨rfl, rfl, rfl, rfl, rfl⟩⟩
  · rw [hkey, hkey2]
  · refine ⟨_, getLocalizedComponent_eq componentTemplates localizationDB
      componentType lang t tpl hT, ?_⟩
    simp [actualLangFor, hL]

/-- C1 witness: the unsupported language `zh` requested for `welcome`. -/
theorem language_fallback_normalization_witness :
    cacheKeyFor localizationDB "welcome" "zh" =
      "component:" ++ "welcome" ++ ":en" ∧
    (∃ comp, getLocalizedComponent componentTemplates localizationDB
        "welcome" "zh" 5 = Except.ok comp ∧ comp.language = "en") := by
  obtain ⟨tpl, htpl⟩ : ∃ tpl, componentTemplates.lookup "welcome" = some tpl :=
    ⟨_, rfl⟩
  have h := language_fallback_normalization "welcome" "zh" tpl 5 htpl
    (by decide)
  exact ⟨h.1, h.2.2.1⟩

end LocBackend
